import Mathlib

/-!
Verification development for the session-memory layer of the travel
assistant repository (`src/memory_manager.py`, class `TravelMemoryManager`).

The SQLite-backed store is shallowly embedded as a `DB` value holding the
three tables (`sessions`, `messages`, `agent_outputs`) as lists of rows in
insertion order, together with the auto-increment counters and a logical
clock.  `CURRENT_TIMESTAMP` is modelled by the strictly increasing logical
clock (one tick per write operation), so `ORDER BY timestamp ASC` on the
rows of one session coincides with insertion order and `DESC` with its
reverse.  `sqlite3` is used by the source without `PRAGMA foreign_keys`,
so foreign-key clauses are not enforced: inserts under a non-existent
session succeed, exactly as in the running code.

Python's `json.loads` / `json.dumps` are embedded as an executable
fuel-based parser `json_loads` and printer `json_dumps` over a `JsonVal`
type.  Numbers are modelled as integers and `\uXXXX` escapes are not
modelled; no payload in this development uses floats or unicode escapes.
Python dict semantics (duplicate keys: last wins) are modelled by
association lists looked up from the right (`objGet`).
-/

inductive JsonVal where
  | jnull
  | jbool (b : Bool)
  | jnum (n : Int)
  | jstr (s : String)
  | jarr (elems : List JsonVal)
  | jobj (fields : List (String × JsonVal))
deriving Repr

/-- Opening brace character, written via its code point. -/
def obrace : Char := Char.ofNat 123

/-- Closing brace character, written via its code point. -/
def cbrace : Char := Char.ofNat 125

def isWs (c : Char) : Bool :=
  c = ' ' || c = '\t' || c = '\n' || c = '\r'

def skipWs : List Char → List Char
  | [] => []
  | c :: cs => if isWs c then skipWs cs else c :: cs

/-- Body of a JSON string literal after the opening quote: returns the
decoded characters and the remainder after the closing quote.  Mirrors
Python's strict decoder: unescaped control characters and unknown escapes
are rejected. -/
def parseStrChars : List Char → Option (List Char × List Char)
  | [] => none
  | '"' :: rest => some ([], rest)
  | '\\' :: e :: rest =>
    let esc : Option Char :=
      if e = '"' then some '"'
      else if e = '\\' then some '\\'
      else if e = '/' then some '/'
      else if e = 'n' then some '\n'
      else if e = 't' then some '\t'
      else if e = 'r' then some '\r'
      else if e = 'b' then some (Char.ofNat 8)
      else if e = 'f' then some (Char.ofNat 12)
      else none
    match esc with
    | some c =>
      match parseStrChars rest with
      | some (s, r) => some (c :: s, r)
      | none => none
    | none => none
  | c :: rest =>
    if c.toNat < 32 then none
    else
      match parseStrChars rest with
      | some (s, r) => some (c :: s, r)
      | none => none

def spanDigits : List Char → List Char × List Char
  | [] => ([], [])
  | c :: t =>
    if c.isDigit then
      let (d, r) := spanDigits t
      (c :: d, r)
    else ([], c :: t)

def digitsToNat (l : List Char) : Nat :=
  l.foldl (fun a c => a * 10 + (c.toNat - 48)) 0

/-- Integer literals (floats and exponents are not modelled; inputs
containing them fail to parse, which no payload in this development
exercises). -/
def parseNum (cs : List Char) : Option (JsonVal × List Char) :=
  let (neg, cs1) := match cs with
    | '-' :: t => (true, t)
    | _ => (false, cs)
  let (digits, rest) := spanDigits cs1
  if digits.isEmpty then none
  else
    let bad : Bool := match rest with
      | c :: _ => c = '.' || c = 'e' || c = 'E'
      | [] => false
    if bad then none
    else
      let n : Int := Int.ofNat (digitsToNat digits)
      some (JsonVal.jnum (if neg then -n else n), rest)

mutual

def parseValue : Nat → List Char → Option (JsonVal × List Char)
  | 0, _ => none
  | fuel + 1, cs =>
    match skipWs cs with
    | [] => none
    | 'n' :: 'u' :: 'l' :: 'l' :: rest => some (JsonVal.jnull, rest)
    | 't' :: 'r' :: 'u' :: 'e' :: rest => some (JsonVal.jbool true, rest)
    | 'f' :: 'a' :: 'l' :: 's' :: 'e' :: rest => some (JsonVal.jbool false, rest)
    | '"' :: rest =>
      match parseStrChars rest with
      | some (chars, r) => some (JsonVal.jstr (String.mk chars), r)
      | none => none
    | '[' :: rest =>
      match skipWs rest with
      | ']' :: r => some (JsonVal.jarr [], r)
      | cs2 =>
        match parseItems fuel cs2 with
        | some (xs, r) => some (JsonVal.jarr xs, r)
        | none => none
    | c :: rest =>
      if c = obrace then
        match skipWs rest with
        | c2 :: r2 =>
          if c2 = cbrace then some (JsonVal.jobj [], r2)
          else
            match parseFields fuel (c2 :: r2) with
            | some (fs, r) => some (JsonVal.jobj fs, r)
            | none => none
        | [] => none
      else if c = '-' || c.isDigit then parseNum (c :: rest)
      else none

def parseItems : Nat → List Char → Option (List JsonVal × List Char)
  | 0, _ => none
  | fuel + 1, cs =>
    match parseValue fuel cs with
    | some (v, r) =>
      match skipWs r with
      | ',' :: r2 =>
        match parseItems fuel r2 with
        | some (xs, r3) => some (v :: xs, r3)
        | none => none
      | ']' :: r2 => some ([v], r2)
      | _ => none
    | none => none

def parseFields : Nat → List Char → Option (List (String × JsonVal) × List Char)
  | 0, _ => none
  | fuel + 1, cs =>
    match skipWs cs with
    | '"' :: rest =>
      match parseStrChars rest with
      | some (kchars, r1) =>
        match skipWs r1 with
        | ':' :: r2 =>
          match parseValue fuel r2 with
          | some (v, r3) =>
            match skipWs r3 with
            | ',' :: r4 =>
              match parseFields fuel r4 with
              | some (fs, r5) => some ((String.mk kchars, v) :: fs, r5)
              | none => none
            | c :: r4 =>
              if c = cbrace then some ([(String.mk kchars, v)], r4)
              else none
            | [] => none
          | none => none
        | _ => none
      | none => none
    | _ => none

end

/-- Model of Python `json.loads`: parse one value, allow trailing
whitespace only; anything else (including parse failure) is the
`JSONDecodeError` case, modelled as `none`. -/
def json_loads (s : String) : Option JsonVal :=
  match parseValue (2 * s.length + 4) s.data with
  | some (v, rest) => if (skipWs rest).isEmpty then some v else none
  | none => none

def escChar (c : Char) : String :=
  if c = '"' then "\\\""
  else if c = '\\' then "\\\\"
  else if c = '\n' then "\\n"
  else if c = '\t' then "\\t"
  else if c = '\r' then "\\r"
  else if c = Char.ofNat 8 then "\\b"
  else if c = Char.ofNat 12 then "\\f"
  else String.mk [c]

def escString (s : String) : String :=
  String.join (s.data.map escChar)

mutual

/-- Model of Python `json.dumps(..., ensure_ascii=False)` with the default
separators `", "` and `": "`. -/
def json_dumps : JsonVal → String
  | JsonVal.jnull => "null"
  | JsonVal.jbool true => "true"
  | JsonVal.jbool false => "false"
  | JsonVal.jnum n => toString n
  | JsonVal.jstr s => "\"" ++ escString s ++ "\""
  | JsonVal.jarr xs => "[" ++ dumpsItems xs ++ "]"
  | JsonVal.jobj fs => "\x7b" ++ dumpsFields fs ++ "\x7d"

def dumpsItems : List JsonVal → String
  | [] => ""
  | [x] => json_dumps x
  | x :: y :: t => json_dumps x ++ ", " ++ dumpsItems (y :: t)

def dumpsFields : List (String × JsonVal) → String
  | [] => ""
  | [(k, v)] => "\"" ++ escString k ++ "\": " ++ json_dumps v
  | (k, v) :: p :: t =>
    "\"" ++ escString k ++ "\": " ++ json_dumps v ++ ", " ++ dumpsFields (p :: t)

end

/-- Lookup in a parsed JSON object.  Python's `json.loads` builds a `dict`,
where a duplicated key keeps its last occurrence, hence the lookup from the
right. -/
def objGet (f : List (String × JsonVal)) (k : String) : Option JsonVal :=
  (f.reverse.find? (fun p => p.1 == k)).map (fun p => p.2)

/-- Python substring containment (`sub in s`) on character lists. -/
def containsSub (l sub : List Char) : Bool :=
  match l with
  | [] => sub.isEmpty
  | _ :: t => sub.isPrefixOf l || containsSub t sub

def strContains (s sub : String) : Bool :=
  containsSub s.data sub.data

def lowerChar (c : Char) : Char :=
  if 'A' ≤ c && c ≤ 'Z' then Char.ofNat (c.toNat + 32) else c

/-- Python `str.lower()` (the agent names passed through it are ASCII). -/
def strLower (s : String) : String :=
  String.mk (s.data.map lowerChar)

/-! ## Data model: the three tables of `_initialize_database` -/

structure SessionRow where
  session_id : String
  created_at : Nat
  last_activity : Nat
  metadata : String
deriving Repr, DecidableEq

structure MessageRow where
  id : Nat
  session_id : String
  role : String
  content : String
  metadata : Option String
  timestamp : Nat
deriving Repr, DecidableEq

structure AgentOutputRow where
  id : Nat
  session_id : String
  agent_name : String
  task_name : String
  output_type : String
  output_data : String
  timestamp : Nat
deriving Repr, DecidableEq

/-- The SQLite database of `TravelMemoryManager`: tables as lists of rows
in insertion order, auto-increment counters, and the logical clock that
models `CURRENT_TIMESTAMP`. -/
structure DB where
  sessions : List SessionRow
  messages : List MessageRow
  agent_outputs : List AgentOutputRow
  next_msg_id : Nat
  next_out_id : Nat
  clock : Nat
deriving Repr

/-- The freshly initialised database (`_initialize_database` creates empty
tables). -/
def db0 : DB := ⟨[], [], [], 1, 1, 0⟩

/-- Input payloads of `store_agent_output`: Python `dict`, Python `list`,
or a non-structured value whose `str()` form is the given string. -/
inductive Payload where
  | pdict (fields : List (String × JsonVal))
  | plist (items : List JsonVal)
  | pstr (s : String)
deriving Repr

/-! ## Operations of `TravelMemoryManager` -/

/-- `create_session`: `INSERT OR IGNORE INTO sessions`, metadata dumped
(`json.dumps(metadata) if metadata else "\x7b\x7d"`; an empty or absent dict
both store `"\x7b\x7d"`); always returns `True`. -/
def create_session (db : DB) (session_id : String)
    (metadata : Option (List (String × JsonVal))) : DB × Bool :=
  let metadata_json := match metadata with
    | some f => json_dumps (JsonVal.jobj f)
    | none => "\x7b\x7d"
  if db.sessions.any (fun r => r.session_id == session_id) then
    ({ db with clock := db.clock + 1 }, true)
  else
    ({ db with
        sessions := db.sessions ++
          [⟨session_id, db.clock, db.clock, metadata_json⟩],
        clock := db.clock + 1 }, true)

/-- `add_message`: inserts the message row and runs
`UPDATE sessions SET last_activity = CURRENT_TIMESTAMP` for the session in
the same commit; `metadata_json` is `json.dumps(metadata) if metadata else
None` (an empty dict is falsy in Python, hence stored as NULL); always
returns `True`. -/
def add_message (db : DB) (session_id role content : String)
    (metadata : Option (List (String × JsonVal))) : DB × Bool :=
  let metadata_json : Option String := match metadata with
    | some f => if f.isEmpty then none else some (json_dumps (JsonVal.jobj f))
    | none => none
  let row : MessageRow :=
    ⟨db.next_msg_id, session_id, role, content, metadata_json, db.clock⟩
  ({ db with
      messages := db.messages ++ [row],
      sessions := db.sessions.map (fun r =>
        if r.session_id == session_id then { r with last_activity := db.clock }
        else r),
      next_msg_id := db.next_msg_id + 1,
      clock := db.clock + 1 }, true)

/-- `store_agent_output`: a `dict`/`list` payload is `json.dumps`-ed and the
kind forced to `json`; otherwise the payload is stringified and the kind is
`text` unless the `output_type` hint is exactly `json`, in which case the
hint is kept.  The insert succeeds regardless of whether the session exists
(the source never enables SQLite foreign-key enforcement). -/
def store_agent_output (db : DB) (session_id agent_name task_name : String)
    (output_data : Payload) (output_type : String) : DB × Bool :=
  let p : String × String := match output_data with
    | Payload.pdict f => (json_dumps (JsonVal.jobj f), "json")
    | Payload.plist l => (json_dumps (JsonVal.jarr l), "json")
    | Payload.pstr s => (s, if output_type == "json" then "json" else "text")
  let row : AgentOutputRow :=
    ⟨db.next_out_id, session_id, agent_name, task_name, p.2, p.1, db.clock⟩
  ({ db with
      agent_outputs := db.agent_outputs ++ [row],
      next_out_id := db.next_out_id + 1,
      clock := db.clock + 1 }, true)

/-- Agent output as returned by `get_agent_outputs`: `output_data` is the
Python value after the opportunistic `json.loads`. -/
inductive OutData where
  | jval (v : JsonVal)
  | str (s : String)
deriving Repr

structure AgentOutput where
  agent_name : String
  task_name : String
  output_type : String
  output_data : OutData
  timestamp : Nat
deriving Repr

/-- Row-to-dict conversion inside `get_agent_outputs` /
`get_latest_agent_output`: a `json` row is parsed, falling back to the raw
string on `JSONDecodeError`; a `text` row stays raw. -/
def outOfRow (r : AgentOutputRow) : AgentOutput :=
  { agent_name := r.agent_name
    task_name := r.task_name
    output_type := r.output_type
    timestamp := r.timestamp
    output_data :=
      if r.output_type == "json" then
        match json_loads r.output_data with
        | some v => OutData.jval v
        | none => OutData.str r.output_data
      else OutData.str r.output_data }

/-- `get_agent_outputs`: rows of the session (optionally filtered by agent
name), `ORDER BY timestamp ASC` — insertion order under the strictly
increasing clock. -/
def get_agent_outputs (db : DB) (session_id : String)
    (agent_name : Option String) : List AgentOutput :=
  (db.agent_outputs.filter (fun r =>
      r.session_id == session_id &&
      (match agent_name with
       | some a => r.agent_name == a
       | none => true))).map outOfRow

structure Message where
  role : String
  content : String
  metadata : JsonVal
  timestamp : Nat
deriving Repr

/-- Row-to-dict conversion inside `get_conversation_history`: a truthy
metadata blob is parsed, `JSONDecodeError` falls back to `\x7b\x7d`; a NULL or
empty blob yields `\x7b\x7d`. -/
def msgOfRow (r : MessageRow) : Message :=
  { role := r.role
    content := r.content
    timestamp := r.timestamp
    metadata :=
      match r.metadata with
      | some m =>
        if m == "" then JsonVal.jobj []
        else
          match json_loads m with
          | some v => v
          | none => JsonVal.jobj []
      | none => JsonVal.jobj [] }

/-- `get_conversation_history`: `ORDER BY timestamp DESC LIMIT ?`, convert
each row, then `list(reversed(...))` for chronological order. -/
def get_conversation_history (db : DB) (session_id : String)
    (limit : Nat) : List Message :=
  let rows :=
    ((db.messages.filter (fun r => r.session_id == session_id)).reverse).take
      limit
  (rows.map msgOfRow).reverse

/-- `clear_session`: deletes the session's messages, agent outputs and
session row; always returns `True`. -/
def clear_session (db : DB) (session_id : String) : DB × Bool :=
  ({ db with
      messages := db.messages.filter (fun r => !(r.session_id == session_id)),
      agent_outputs :=
        db.agent_outputs.filter (fun r => !(r.session_id == session_id)),
      sessions := db.sessions.filter (fun r => !(r.session_id == session_id)),
      clock := db.clock + 1 }, true)

structure SessionStats where
  session_id : String
  message_count : Nat
  agent_call_count : Nat
  created_at : Option Nat
  last_activity : Option Nat
deriving Repr, DecidableEq

/-- `get_session_stats`: two `COUNT(*)` queries plus `fetchone` on the
session row (`None` fields when the session row is absent). -/
def get_session_stats (db : DB) (session_id : String) : SessionStats :=
  let info := db.sessions.find? (fun r => r.session_id == session_id)
  { session_id := session_id
    message_count :=
      (db.messages.filter (fun r => r.session_id == session_id)).length
    agent_call_count :=
      (db.agent_outputs.filter (fun r => r.session_id == session_id)).length
    created_at := info.map (fun r => r.created_at)
    last_activity := info.map (fun r => r.last_activity) }

/-! ## Context extraction (`get_full_context`) -/

structure LangContext where
  detected_language : Option JsonVal
  language_name : Option JsonVal
deriving Repr

structure SearchResult where
  service_type : String
  results : List JsonVal
  timestamp : Nat
deriving Repr

/-- Running state of the extraction loop in `get_full_context`
(`language_context = None`, `entities = \x7b\x7d`, `search_results = []`). -/
@[ext]
structure ExtractState where
  language : Option LangContext
  entities : List (String × JsonVal)
  search_results : List SearchResult
deriving Repr

/-- The `service_type_map` dict with its `.get(key, 'unknown')` default. -/
def serviceTypeMap (k : String) : String :=
  if k == "flights" then "flight"
  else if k == "hotels" then "hotel"
  else if k == "trains" then "transport"
  else if k == "buses" then "transport"
  else if k == "attractions" then "attractions"
  else "unknown"

/-- The key list iterated by the `for key in [...]` loop, in source order. -/
def searchKeys : List String := ["flights", "hotels", "trains", "buses", "attractions"]

/-- The `for key in [...] ... break` loop: first key of `ks` present in the
dict with a non-empty list value. -/
def firstSearchHit (f : List (String × JsonVal)) : List String → Option (String × List JsonVal)
  | [] => none
  | k :: ks =>
    match objGet f k with
    | some (JsonVal.jarr xs) =>
      if xs.length > 0 then some (k, xs) else firstSearchHit f ks
    | _ => firstSearchHit f ks

/-- The `if ... 'language' in agent_name_lower or 'detection' in
agent_name_lower ... and output['output_type'] == 'json'` guard. -/
def langCond (o : AgentOutput) : Bool :=
  (strContains (strLower o.agent_name) "language" ||
   strContains (strLower o.agent_name) "detection") && o.output_type == "json"

/-- First if-block of the loop body: extract language context (and
entities) from a language-related agent's json dict output. -/
def langStep (st : ExtractState) (o : AgentOutput) : ExtractState :=
  if langCond o then
    match o.output_data with
    | OutData.jval (JsonVal.jobj f) =>
      { st with
          language := some
            ⟨objGet f "detected_language", objGet f "language_name"⟩,
          entities :=
            match objGet f "entities" with
            | some (JsonVal.jobj ef) => ef
            | _ => st.entities }
    | _ => st
  else st

/-- Second if-block of the loop body: extract (at most one) search-result
record from a json dict output. -/
def searchStep (st : ExtractState) (o : AgentOutput) : ExtractState :=
  if o.output_type == "json" then
    match o.output_data with
    | OutData.jval (JsonVal.jobj f) =>
      match firstSearchHit f searchKeys with
      | some kxs =>
        { st with
            search_results := st.search_results ++
              [⟨serviceTypeMap kxs.1, kxs.2, o.timestamp⟩] }
      | none => st
    | _ => st
  else st

/-- One iteration of the extraction loop body in `get_full_context`: the
language block followed by the search block. -/
def extractStep (st : ExtractState) (o : AgentOutput) : ExtractState :=
  searchStep (langStep st o) o

structure FullContext where
  session_id : String
  language : Option LangContext
  entities : List (String × JsonVal)
  search_results : List SearchResult
  conversation_history : List Message
  agent_outputs : List AgentOutput
deriving Repr

/-- `get_full_context`: raw listings plus the extraction loop over the
agent outputs in chronological order. -/
def get_full_context (db : DB) (session_id : String) : FullContext :=
  let agent_outputs := get_agent_outputs db session_id none
  let conversation_history := get_conversation_history db session_id 10
  let st := agent_outputs.foldl extractStep ⟨none, [], []⟩
  { session_id := session_id
    language := st.language
    entities := st.entities
    search_results := st.search_results
    conversation_history := conversation_history
    agent_outputs := agent_outputs }

/-! ## Spec-side definitions (used to state the refinement claims) -/

/-- Modelled from the spec claim wording: the canonical tag table
"flights mapped to tag flight, hotels to hotel, trains and buses both to
transport, and attractions to attractions". -/
def specServiceTag (k : String) : String :=
  if k == "flights" then "flight"
  else if k == "hotels" then "hotel"
  else if k == "trains" then "transport"
  else if k == "buses" then "transport"
  else "attractions"

/-- Modelled from the spec claim wording: for an output whose kind is json
and whose payload is a mapping, check the keys flights, hotels, trains,
buses, attractions in that fixed priority order and, on the first key
present with a non-empty list value, produce exactly one
`\x7bservice_type, results, timestamp\x7d` record (at most one per output). -/
def searchRecordSpec (o : AgentOutput) : Option SearchResult :=
  if o.output_type == "json" then
    match o.output_data with
    | OutData.jval (JsonVal.jobj f) =>
      ["flights", "hotels", "trains", "buses", "attractions"].findSome?
        (fun k =>
          match objGet f k with
          | some (JsonVal.jarr xs) =>
            if xs.isEmpty then none
            else some ⟨specServiceTag k, xs, o.timestamp⟩
          | _ => none)
    | _ => none
  else none

/-- Whether an output triggers the language/entities branch with a dict
payload: language-related agent name, kind json, payload a mapping. -/
def isLangJsonDict (o : AgentOutput) : Bool :=
  langCond o &&
    (match o.output_data with
     | OutData.jval (JsonVal.jobj _) => true
     | _ => false)

def dictOf (o : AgentOutput) : Option (List (String × JsonVal)) :=
  match o.output_data with
  | OutData.jval (JsonVal.jobj f) => some f
  | _ => none

/-- The language pair read off one output's dict payload. -/
def langCtxOfOut (o : AgentOutput) : Option LangContext :=
  match dictOf o with
  | some f => some ⟨objGet f "detected_language", objGet f "language_name"⟩
  | none => none

/-- The language view dictated by last-write-wins over the qualifying
outputs. -/
def specLanguage (outs : List AgentOutput) : Option LangContext :=
  match (outs.filter isLangJsonDict).getLast? with
  | some o => langCtxOfOut o
  | none => none

/-- The entities update contributed by one output, when any: the qualifying
output must in addition carry a dict-valued `entities` key. -/
def entUpdate (o : AgentOutput) : Option (List (String × JsonVal)) :=
  if isLangJsonDict o then
    match dictOf o with
    | some f =>
      match objGet f "entities" with
      | some (JsonVal.jobj ef) => some ef
      | _ => none
    | none => none
  else none

/-- The entities view dictated by last-write-wins over the outputs that
carry an entities update. -/
def specEntities (outs : List AgentOutput) : List (String × JsonVal) :=
  match (outs.filterMap entUpdate).getLast? with
  | some ef => ef
  | none => []

/-! ## Helper lemmas about the extraction loop -/

theorem langStep_search_results (st : ExtractState) (o : AgentOutput) :
    (langStep st o).search_results = st.search_results := by
  unfold langStep
  repeat' split
  all_goals rfl

theorem searchStep_language (st : ExtractState) (o : AgentOutput) :
    (searchStep st o).language = st.language := by
  unfold searchStep
  repeat' split
  all_goals rfl

theorem searchStep_entities (st : ExtractState) (o : AgentOutput) :
    (searchStep st o).entities = st.entities := by
  unfold searchStep
  repeat' split
  all_goals rfl

theorem firstSearchHit_findSome (f : List (String × JsonVal)) (ts : Nat) :
    ∀ ks : List String, (∀ k ∈ ks, serviceTypeMap k = specServiceTag k) →
    (match firstSearchHit f ks with
     | some kxs => [(⟨serviceTypeMap kxs.1, kxs.2, ts⟩ : SearchResult)]
     | none => ([] : List SearchResult)) =
    (ks.findSome? (fun k =>
      match objGet f k with
      | some (JsonVal.jarr xs) =>
        if xs.isEmpty then none
        else some (⟨specServiceTag k, xs, ts⟩ : SearchResult)
      | _ => none)).toList := by
  intro ks
  induction ks with
  | nil => intro _; rfl
  | cons k ks ih =>
    intro h
    have hk : serviceTypeMap k = specServiceTag k := h k (List.mem_cons_self k ks)
    have hks : ∀ k2 ∈ ks, serviceTypeMap k2 = specServiceTag k2 :=
      fun k2 hk2 => h k2 (List.mem_cons_of_mem k hk2)
    simp only [firstSearchHit, List.findSome?_cons]
    cases hg : objGet f k with
    | none => exact ih hks
    | some v =>
      cases v with
      | jarr xs =>
        cases xs with
        | nil => simpa using ih hks
        | cons a t => simp [hk]
      | jnull => exact ih hks
      | jbool b => exact ih hks
      | jnum n => exact ih hks
      | jstr s => exact ih hks
      | jobj fs2 => exact ih hks

theorem searchStep_search_results (st : ExtractState) (o : AgentOutput) :
    (searchStep st o).search_results =
      st.search_results ++ (searchRecordSpec o).toList := by
  have key := fun (fs : List (String × JsonVal)) =>
    firstSearchHit_findSome fs o.timestamp searchKeys (by decide)
  unfold searchStep searchRecordSpec
  split
  · split
    · rename_i fs hfs
      have hthis := key fs
      simp only [searchKeys] at hthis
      cases hhit : firstSearchHit fs searchKeys with
      | some kxs =>
        simp only [searchKeys] at hhit
        rw [hhit] at hthis
        rw [← hthis]
      | none =>
        simp only [searchKeys] at hhit
        rw [hhit] at hthis
        rw [← hthis]
        simp
    · rename_i hne
      cases hd : o.output_data with
      | jval v => cases v <;> simp_all
      | str s => simp
  · simp

theorem extractStep_search_results (st : ExtractState) (o : AgentOutput) :
    (extractStep st o).search_results =
      st.search_results ++ (searchRecordSpec o).toList := by
  unfold extractStep
  rw [searchStep_search_results, langStep_search_results]

theorem langStep_language (st : ExtractState) (o : AgentOutput) :
    (langStep st o).language =
      if isLangJsonDict o then langCtxOfOut o else st.language := by
  unfold langStep isLangJsonDict langCtxOfOut dictOf
  split
  · rename_i hc
    cases hd : o.output_data with
    | jval v => cases v <;> simp [hc]
    | str s => simp [hc]
  · rename_i hc
    simp only [Bool.not_eq_true] at hc
    simp [hc]

theorem langStep_entities (st : ExtractState) (o : AgentOutput) :
    (langStep st o).entities =
      match entUpdate o with
      | some ef => ef
      | none => st.entities := by
  unfold langStep entUpdate isLangJsonDict dictOf
  split
  · rename_i hc
    cases hd : o.output_data with
    | jval v =>
      cases v <;> try simp [hc]
      rename_i fs
      cases hg : objGet fs "entities" with
      | none => simp [hc, hg]
      | some w => cases w <;> simp [hc, hg]
    | str s => simp [hc]
  · rename_i hc
    simp only [Bool.not_eq_true] at hc
    simp [hc]

theorem extractStep_language (st : ExtractState) (o : AgentOutput) :
    (extractStep st o).language =
      if isLangJsonDict o then langCtxOfOut o else st.language := by
  unfold extractStep
  rw [searchStep_language, langStep_language]

theorem extractStep_entities (st : ExtractState) (o : AgentOutput) :
    (extractStep st o).entities =
      match entUpdate o with
      | some ef => ef
      | none => st.entities := by
  unfold extractStep
  rw [searchStep_entities, langStep_entities]

theorem foldl_extract_search (l : List AgentOutput) (st : ExtractState) :
    (l.foldl extractStep st).search_results =
      st.search_results ++ l.filterMap searchRecordSpec := by
  induction l generalizing st with
  | nil => simp
  | cons o l ih =>
    rw [List.foldl_cons, ih, List.filterMap_cons, extractStep_search_results]
    cases searchRecordSpec o <;> simp

theorem foldl_extract_language (l : List AgentOutput) (st : ExtractState) :
    (l.foldl extractStep st).language =
      match (l.filter isLangJsonDict).getLast? with
      | some o => langCtxOfOut o
      | none => st.language := by
  induction l using List.reverseRecOn generalizing st with
  | nil => simp
  | append_singleton l o ih =>
    rw [List.foldl_append, List.foldl_cons, List.foldl_nil,
      extractStep_language, List.filter_append]
    cases hc : isLangJsonDict o with
    | true =>
      simp only [if_true, List.filter_cons, hc, List.filter_nil,
        List.getLast?_concat]
    | false =>
      simp only [Bool.false_eq_true, if_false, List.filter_cons, hc,
        List.filter_nil, List.append_nil]
      exact ih st

theorem foldl_extract_entities (l : List AgentOutput) (st : ExtractState) :
    (l.foldl extractStep st).entities =
      match (l.filterMap entUpdate).getLast? with
      | some ef => ef
      | none => st.entities := by
  induction l using List.reverseRecOn generalizing st with
  | nil => simp
  | append_singleton l o ih =>
    rw [List.foldl_append, List.foldl_cons, List.foldl_nil,
      extractStep_entities, List.filterMap_append]
    cases hu : entUpdate o with
    | some ef =>
      simp only [List.filterMap_cons, hu, List.filterMap_nil,
        List.getLast?_concat]
    | none =>
      simp only [List.filterMap_cons, hu, List.filterMap_nil, List.append_nil]
      exact ih st

/-! ## Claims C8 and C9: the derived views of `get_full_context` -/

/-- Claim C8: during context extraction, every stored agent output of kind
json with a mapping payload is checked for the keys flights, hotels,
trains, buses, attractions in that fixed priority order; the first key
present with a non-empty list value contributes exactly one
`\x7bservice_type, results, timestamp\x7d` record to `search_results` and no
further key of that output is checked, with flights mapped to tag flight,
hotels to hotel, trains and buses both to transport, and attractions to
attractions.  Stated as a refinement: the extraction loop's
`search_results` equals the per-output first-hit records
(`searchRecordSpec`, written from the claim's wording) accumulated in
order. -/
theorem search_results_extraction (db : DB) (s : String) :
    (get_full_context db s).search_results =
      (get_agent_outputs db s none).filterMap searchRecordSpec := by
  simp only [get_full_context]
  rw [foldl_extract_search]
  rfl

/-- The concrete session used to refute claim C9: two json outputs from a
language-related agent, the second of which carries no `entities` key. -/
def dbLang : DB :=
  (store_agent_output
    (store_agent_output (create_session db0 "s1" none).1
      "s1" "language_detector" "task1"
      (Payload.pdict [("detected_language", JsonVal.jstr "hi"),
                      ("language_name", JsonVal.jstr "Hindi"),
                      ("entities", JsonVal.jobj [("origin", JsonVal.jstr "Mumbai")])])
      "json").1
    "s1" "language_detector" "task2"
    (Payload.pdict [("detected_language", JsonVal.jstr "en"),
                    ("language_name", JsonVal.jstr "English")])
    "json").1

/-- Claim C9 is false as stated: in `dbLang` the chronologically last
json output of the language agent has no `entities` key at all, yet the
`entities` view still holds the earlier output's entity map — so the
entities view is not "the values extracted from the chronologically last"
matching output. -/
theorem entities_last_write_counterexample :
    ((get_full_context dbLang "s1").entities =
      [("origin", JsonVal.jstr "Mumbai")]) ∧
    (((get_agent_outputs dbLang "s1" none).getLast?.bind dictOf).map
      (fun f => objGet f "entities") = some none) ∧
    ((get_full_context dbLang "s1").language =
      some ⟨some (JsonVal.jstr "en"), some (JsonVal.jstr "English")⟩) := by
  refine ⟨?_, ?_, ?_⟩ <;> rfl

/-- Claim C9 amended: the language view is last-write-wins over the
json-dict outputs of language-related agents; the entities view is
last-write-wins over the subset of those outputs that carry a dict-valued
`entities` key (an output without one leaves earlier entities in place);
`search_results` accumulates one record per qualifying output in
chronological order, never overwriting or removing earlier entries. -/
theorem context_views_amended (db : DB) (s : String) :
    ((get_full_context db s).language =
      specLanguage (get_agent_outputs db s none)) ∧
    ((get_full_context db s).entities =
      specEntities (get_agent_outputs db s none)) ∧
    ((get_full_context db s).search_results =
      (get_agent_outputs db s none).filterMap searchRecordSpec) := by
  refine ⟨?_, ?_, ?_⟩
  · simp only [get_full_context, specLanguage]
    rw [foldl_extract_language]
  · simp only [get_full_context, specEntities]
    rw [foldl_extract_entities]
  · simp only [get_full_context]
    rw [foldl_extract_search]
    rfl

/-! ## Claim C1: malformed payload with kind hint json -/

/-- An output whose retrieved payload is a plain string is inert for the
extraction loop: neither the language block nor the search block touches
the state. -/
theorem extractStep_str (st : ExtractState) (o : AgentOutput) (x : String)
    (h : o.output_data = OutData.str x) : extractStep st o = st := by
  have hl : isLangJsonDict o = false := by simp [isLangJsonDict, h]
  have he : entUpdate o = none := by simp [entUpdate, isLangJsonDict, h]
  have hs : searchRecordSpec o = none := by
    unfold searchRecordSpec
    rw [h]
    split <;> rfl
  ext1
  · rw [extractStep_language, hl]
    simp
  · rw [extractStep_entities, he]
  · rw [extractStep_search_results, hs]
    simp

/-- The concrete session used to refute claim C1: the malformed payload
stored with kind hint json. -/
def dbC1 : DB :=
  (store_agent_output (create_session db0 "s1" none).1
    "s1" "agentA" "taskA" (Payload.pstr "\x7bnot valid json") "json").1

/-- Claim C1 is false as stated: the stored row for the malformed payload
`"\x7bnot valid json"` with kind hint json is retrieved with kind `json`
(the hint is kept by `store_agent_output`), not kind `text` as the claim
requires; the payload itself does come back as the literal string. -/
theorem store_invalid_json_kind_counterexample :
    ((get_agent_outputs dbC1 "s1" none).map (fun o => o.output_type) =
      ["json"]) ∧
    ¬ ((get_agent_outputs dbC1 "s1" none).map (fun o => o.output_type) =
      ["text"]) := by
  refine ⟨rfl, ?_⟩
  have hjson : (get_agent_outputs dbC1 "s1" none).map (fun o => o.output_type) =
      ["json"] := rfl
  rw [hjson]
  decide

/-- Claim C1 amended: appending the payload `"\x7bnot valid json"` with kind
hint json stores a row that is retrieved with kind json and output data
equal to the literal string (the parse attempt falls back to the raw
text), and `get_full_context` does not raise and leaves the language,
entities and search_results views unaffected by that output. -/
theorem store_invalid_json_amended (db : DB) (s agent task : String) :
    (get_agent_outputs
        (store_agent_output db s agent task
          (Payload.pstr "\x7bnot valid json") "json").1 s none =
      get_agent_outputs db s none ++
        [⟨agent, task, "json", OutData.str "\x7bnot valid json", db.clock⟩]) ∧
    ((get_full_context
        (store_agent_output db s agent task
          (Payload.pstr "\x7bnot valid json") "json").1 s).language =
      (get_full_context db s).language) ∧
    ((get_full_context
        (store_agent_output db s agent task
          (Payload.pstr "\x7bnot valid json") "json").1 s).entities =
      (get_full_context db s).entities) ∧
    ((get_full_context
        (store_agent_output db s agent task
          (Payload.pstr "\x7bnot valid json") "json").1 s).search_results =
      (get_full_context db s).search_results) := by
  have hrow : get_agent_outputs
      (store_agent_output db s agent task
        (Payload.pstr "\x7bnot valid json") "json").1 s none =
      get_agent_outputs db s none ++
        [⟨agent, task, "json", OutData.str "\x7bnot valid json", db.clock⟩] := by
    simp only [store_agent_output, get_agent_outputs, List.filter_append,
      List.map_append]
    congr 1
    have : json_loads "\x7bnot valid json" = none := rfl
    simp [outOfRow, this]
  refine ⟨hrow, ?_, ?_, ?_⟩ <;>
    simp only [get_full_context, hrow, List.foldl_append, List.foldl_cons,
      List.foldl_nil] <;>
    rw [extractStep_str _ _ "\x7bnot valid json" rfl]

/-! ## Claim C2: the return value of `create_session` -/

/-- Claim C2 is false as stated: `create_session` returns `True` on the
first call and `True` again on the duplicate call for the same identifier,
so the boolean does not distinguish newly created from already existing. -/
theorem create_session_duplicate_counterexample :
    ((create_session db0 "s1" none).2 = true) ∧
    ((create_session (create_session db0 "s1" none).1 "s1" none).2 = true) :=
  ⟨rfl, rfl⟩

/-- Claim C2 amended: `create_session` always returns `True` — on first
creation and on duplicates alike; the duplicate call is a successful no-op
that leaves the sessions table unchanged, but the return value does not
distinguish the two cases. -/
theorem create_session_return_amended (db : DB) (s : String)
    (m : Option (List (String × JsonVal))) :
    ((create_session db s m).2 = true) ∧
    (db.sessions.any (fun r => r.session_id == s) = true →
      (create_session db s m).1.sessions = db.sessions) := by
  constructor
  · simp only [create_session]
    split <;> rfl
  · intro h
    simp [create_session, h]

theorem create_session_return_amended_witness :
    ((create_session (create_session db0 "s1" none).1 "s1" none).2 = true) ∧
    ((create_session (create_session db0 "s1" none).1 "s1" none).1.sessions =
      (create_session db0 "s1" none).1.sessions) :=
  ⟨(create_session_return_amended (create_session db0 "s1" none).1 "s1" none).1,
   (create_session_return_amended (create_session db0 "s1" none).1 "s1" none).2
     rfl⟩

/-! ## Claim C3: the return value of `clear_session` -/

/-- Claim C3 is false as stated: `clear_session` on a session that never
existed still returns `True`, so the return value does not equal whether
the session existed before the call. -/
theorem clear_session_missing_counterexample :
    ((clear_session db0 "ghost").2 = true) ∧
    (db0.sessions.find? (fun r => r.session_id == "ghost") = none) :=
  ⟨rfl, rfl⟩

/-- Claim C3 amended: `clear_session` removes all messages, all agent
outputs and the session row for the identifier, but its return value is
`True` unconditionally — it does not report whether the session existed. -/
theorem clear_session_amended (db : DB) (s : String) :
    ((clear_session db s).2 = true) ∧
    ((clear_session db s).1.messages.filter (fun r => r.session_id == s) = []) ∧
    ((clear_session db s).1.agent_outputs.filter
      (fun r => r.session_id == s) = []) ∧
    ((clear_session db s).1.sessions.filter (fun r => r.session_id == s) = []) := by
  refine ⟨rfl, ?_, ?_, ?_⟩ <;> simp [clear_session, List.filter_filter]

/-! ## Claim C4: rows under a never-created session identifier -/

/-- The orphan row used to refute claim C4: an agent output stored under
the identifier "ghost", which was never created as a session. -/
def dbGhost : DB :=
  (store_agent_output db0 "ghost" "agentA" "taskA"
    (Payload.pstr "hello") "text").1

/-- Claim C4 is false as stated: an agent output stored under the
never-created identifier "ghost" does surface — `get_full_context "ghost"`
returns it in the `agent_outputs` view. -/
theorem orphan_rows_surface_counterexample :
    ((get_full_context dbGhost "ghost").agent_outputs.length = 1) ∧
    (db0.sessions.find? (fun r => r.session_id == "ghost") = none) :=
  ⟨rfl, rfl⟩

/-- Claim C4 amended: rows appended under a never-created session
identifier are stored (foreign keys are unenforced) and do surface in every
read scoped by that identifier — `get_full_context` returns the appended
agent output, and appended messages are counted and listed — while the
sessions table still has no row for the identifier. -/
theorem orphan_rows_surface_amended (db : DB)
    (s agent task role content hint : String) (payload : Payload)
    (h : db.sessions.find? (fun r => r.session_id == s) = none) :
    ((get_full_context (store_agent_output db s agent task payload hint).1
        s).agent_outputs.length =
      (get_full_context db s).agent_outputs.length + 1) ∧
    ((store_agent_output db s agent task payload hint).1.sessions.find?
        (fun r => r.session_id == s) = none) ∧
    (((add_message db s role content none).1.messages.filter
        (fun r => r.session_id == s)).length =
      (db.messages.filter (fun r => r.session_id == s)).length + 1) ∧
    ((get_conversation_history (add_message db s role content none).1 s
        ((db.messages.filter (fun r => r.session_id == s)).length + 1)).length =
      (db.messages.filter (fun r => r.session_id == s)).length + 1) := by
  refine ⟨?_, ?_, ?_, ?_⟩
  · simp [get_full_context, get_agent_outputs, store_agent_output,
      List.filter_append]
  · simpa [store_agent_output] using h
  · simp [add_message, List.filter_append]
  · simp [get_conversation_history, add_message, List.filter_append,
      List.length_take, List.length_reverse]

theorem orphan_rows_surface_amended_witness :
    ((get_full_context (store_agent_output db0 "ghost" "agentA" "taskA"
        (Payload.pstr "hello") "text").1 "ghost").agent_outputs.length =
      (get_full_context db0 "ghost").agent_outputs.length + 1) ∧
    ((store_agent_output db0 "ghost" "agentA" "taskA"
        (Payload.pstr "hello") "text").1.sessions.find?
        (fun r => r.session_id == "ghost") = none) ∧
    (((add_message db0 "ghost" "user" "hi" none).1.messages.filter
        (fun r => r.session_id == "ghost")).length =
      (db0.messages.filter (fun r => r.session_id == "ghost")).length + 1) ∧
    ((get_conversation_history (add_message db0 "ghost" "user" "hi" none).1
        "ghost"
        ((db0.messages.filter (fun r => r.session_id == "ghost")).length + 1)).length =
      (db0.messages.filter (fun r => r.session_id == "ghost")).length + 1) :=
  orphan_rows_surface_amended db0 "ghost" "agentA" "taskA" "user" "hi" "text"
    (Payload.pstr "hello") rfl

/-! ## Claim C7: idempotent create -/

theorem find?_append_of_none {α : Type} (p : α → Bool) {l1 : List α}
    (l2 : List α) (h : l1.find? p = none) :
    (l1 ++ l2).find? p = l2.find? p := by
  induction l1 with
  | nil => rfl
  | cons x l1 ih =>
    cases hx : p x with
    | true =>
      rw [List.find?_cons_of_pos _ hx] at h
      exact absurd h (by simp)
    | false =>
      rw [List.find?_cons_of_neg _ (by simp [hx])] at h
      rw [List.cons_append, List.find?_cons_of_neg _ (by simp [hx])]
      exact ih h

/-- Claim C7: calling `create_session` twice in succession for a fresh
identifier leaves exactly one session row for it, the stored `created_at`
is the clock value of the first call, and the second call does not alter
the sessions table at all. -/
theorem create_session_idempotent (db : DB) (s : String)
    (m1 m2 : Option (List (String × JsonVal)))
    (h : db.sessions.find? (fun r => r.session_id == s) = none) :
    ((create_session (create_session db s m1).1 s m2).1.sessions =
      (create_session db s m1).1.sessions) ∧
    (((create_session (create_session db s m1).1 s m2).1.sessions.filter
        (fun r => r.session_id == s)).length = 1) ∧
    (((create_session (create_session db s m1).1 s m2).1.sessions.find?
        (fun r => r.session_id == s)).map (fun r => r.created_at) =
      some db.clock) := by
  have hforall : ∀ x ∈ db.sessions, ¬ (x.session_id == s) = true :=
    List.find?_eq_none.mp h
  have hany : (db.sessions.any (fun r => r.session_id == s)) = false := by
    rw [List.any_eq_false]
    exact hforall
  have hnil : db.sessions.filter (fun r => r.session_id == s) = [] := by
    rw [List.filter_eq_nil_iff]
    exact hforall
  simp only [create_session, hany, Bool.false_eq_true, if_false,
    List.any_append, List.any_cons, List.any_nil, beq_self_eq_true,
    Bool.true_or, Bool.or_true, Bool.or_false, if_true]
  refine ⟨trivial, ?_, ?_⟩
  · rw [List.filter_append, hnil]
    simp
  · rw [find?_append_of_none _ _ h]
    simp

theorem create_session_idempotent_witness :
    ((create_session (create_session db0 "s1" none).1 "s1" none).1.sessions =
      (create_session db0 "s1" none).1.sessions) ∧
    (((create_session (create_session db0 "s1" none).1 "s1" none).1.sessions.filter
        (fun r => r.session_id == "s1")).length = 1) ∧
    (((create_session (create_session db0 "s1" none).1 "s1" none).1.sessions.find?
        (fun r => r.session_id == "s1")).map (fun r => r.created_at) =
      some db0.clock) :=
  create_session_idempotent db0 "s1" none none rfl

/-! ## Claim C5: message insert plus last-activity bump -/

theorem find?_update_last_activity (s : String) (t : Nat) :
    ∀ (l : List SessionRow) (r : SessionRow),
      l.find? (fun x => x.session_id == s) = some r →
      (l.map (fun x =>
          if x.session_id == s then { x with last_activity := t } else x)).find?
        (fun x => x.session_id == s) = some { r with last_activity := t } := by
  intro l
  induction l with
  | nil => intro r h; exact absurd h (by simp)
  | cons x l ih =>
    intro r h
    cases hx : (x.session_id == s) with
    | true =>
      have hfind : (x :: l).find? (fun y => y.session_id == s) = some x :=
        List.find?_cons_of_pos _ hx
      rw [hfind] at h
      injection h with h
      subst h
      rw [List.map_cons, if_pos hx]
      exact List.find?_cons_of_pos _ hx
    | false =>
      have hfind : (x :: l).find? (fun y => y.session_id == s) =
          l.find? (fun y => y.session_id == s) :=
        List.find?_cons_of_neg _ (by simp [hx])
      rw [hfind] at h
      rw [List.map_cons, if_neg (by simp [hx])]
      have hfind2 : (x :: l.map (fun y =>
          if y.session_id == s then { y with last_activity := t } else y)).find?
            (fun y => y.session_id == s) =
          (l.map (fun y =>
            if y.session_id == s then { y with last_activity := t } else y)).find?
            (fun y => y.session_id == s) :=
        List.find?_cons_of_neg _ (by simp [hx])
      rw [hfind2]
      exact ih r h

/-- Claim C5: `add_message` inserts the message row and bumps the
session's last-activity timestamp in one state transition (the embedding
of the single commit): afterwards the stats report the new clock value as
last activity, which is at least the previously observed value, and the
message count grew by exactly one — there is no state with the message
recorded but the activity not bumped. -/
theorem add_message_atomic_bump (db : DB) (s role content : String)
    (md : Option (List (String × JsonVal))) (r : SessionRow)
    (hwf : ∀ x ∈ db.sessions, x.last_activity ≤ db.clock)
    (hr : db.sessions.find? (fun x => x.session_id == s) = some r) :
    ((get_session_stats (add_message db s role content md).1 s).last_activity =
      some db.clock) ∧
    ((get_session_stats db s).last_activity = some r.last_activity) ∧
    (r.last_activity ≤ db.clock) ∧
    ((get_session_stats (add_message db s role content md).1 s).message_count =
      (get_session_stats db s).message_count + 1) := by
  refine ⟨?_, ?_, ?_, ?_⟩
  · simp only [get_session_stats, add_message]
    rw [find?_update_last_activity s db.clock db.sessions r hr]
    rfl
  · simp only [get_session_stats, hr]
    rfl
  · exact hwf r (List.mem_of_find?_eq_some hr)
  · simp [get_session_stats, add_message, List.filter_append]

theorem add_message_atomic_bump_witness :
    ((get_session_stats
        (add_message (create_session db0 "s1" none).1 "s1" "user" "hello"
          none).1 "s1").last_activity =
      some (create_session db0 "s1" none).1.clock) ∧
    ((get_session_stats (create_session db0 "s1" none).1 "s1").last_activity =
      some (0 : Nat)) ∧
    ((0 : Nat) ≤ (create_session db0 "s1" none).1.clock) ∧
    ((get_session_stats
        (add_message (create_session db0 "s1" none).1 "s1" "user" "hello"
          none).1 "s1").message_count =
      (get_session_stats (create_session db0 "s1" none).1 "s1").message_count +
        1) :=
  add_message_atomic_bump (create_session db0 "s1" none).1 "s1" "user" "hello"
    none ⟨"s1", 0, 0, "\x7b\x7d"⟩ (by decide) rfl

/-! ## Claim C6: chronological order of `get_conversation_history` -/

/-- A sequence of `add_message` calls for one session (role/content pairs,
no metadata). -/
def addMessages (db : DB) (s : String) (items : List (String × String)) : DB :=
  items.foldl (fun d i => (add_message d s i.1 i.2 none).1) db

theorem addMessages_rows (s : String) :
    ∀ (items : List (String × String)) (db : DB), ∃ rows : List MessageRow,
      ((addMessages db s items).messages.filter (fun r => r.session_id == s) =
        (db.messages.filter (fun r => r.session_id == s)) ++ rows) ∧
      (rows.map (fun r => (r.role, r.content)) = items) ∧
      rows.Pairwise (fun a b => a.timestamp < b.timestamp) ∧
      (∀ r ∈ rows, db.clock ≤ r.timestamp) ∧
      (∀ r ∈ rows, r.timestamp < (addMessages db s items).clock) ∧
      db.clock ≤ (addMessages db s items).clock := by
  intro items
  induction items with
  | nil =>
    intro db
    exact ⟨[], by simp [addMessages], rfl, List.Pairwise.nil, by simp,
      by simp, Nat.le_refl _⟩
  | cons i items ih =>
    intro db
    obtain ⟨rows1, hfil, hmap, hpw, hlo, hhi, hclk⟩ :=
      ih (add_message db s i.1 i.2 none).1
    have hstep : (add_message db s i.1 i.2 none).1.messages.filter
        (fun r => r.session_id == s) =
        db.messages.filter (fun r => r.session_id == s) ++
          [⟨db.next_msg_id, s, i.1, i.2, none, db.clock⟩] := by
      simp [add_message, List.filter_append]
    have hclk1 : (add_message db s i.1 i.2 none).1.clock = db.clock + 1 := rfl
    refine ⟨⟨db.next_msg_id, s, i.1, i.2, none, db.clock⟩ :: rows1,
      ?_, ?_, ?_, ?_, ?_, ?_⟩
    · have : addMessages db s (i :: items) =
          addMessages (add_message db s i.1 i.2 none).1 s items := rfl
      rw [this, hfil, hstep, List.append_assoc]
      rfl
    · rw [List.map_cons, hmap]
    · refine List.Pairwise.cons ?_ hpw
      intro b hb
      have := hlo b hb
      rw [hclk1] at this
      exact Nat.lt_of_lt_of_le (Nat.lt_succ_self _) this
    · intro r hr
      rcases List.mem_cons.mp hr with h1 | h1
      · subst h1; exact Nat.le_refl _
      · have := hlo r h1
        rw [hclk1] at this
        exact Nat.le_trans (Nat.le_succ _) this
    · intro r hr
      rcases List.mem_cons.mp hr with h1 | h1
      · subst h1
        have : (addMessages db s (i :: items)).clock =
            (addMessages (add_message db s i.1 i.2 none).1 s items).clock := rfl
        rw [this]
        calc db.clock < db.clock + 1 := Nat.lt_succ_self _
        _ = (add_message db s i.1 i.2 none).1.clock := hclk1.symm
        _ ≤ _ := hclk
      · exact hhi r h1
    · have : (addMessages db s (i :: items)).clock =
          (addMessages (add_message db s i.1 i.2 none).1 s items).clock := rfl
      rw [this]
      exact Nat.le_trans (by rw [hclk1]; exact Nat.le_succ _) hclk

/-- Claim C6: appending N messages to a session and then asking
`get_conversation_history` for the most recent N returns exactly those
messages, in the exact order appended (the newest N are fetched by
descending timestamp and re-sorted ascending), and their timestamps are
non-decreasing. -/
theorem conversation_history_order (db : DB) (s : String)
    (items : List (String × String)) :
    ((get_conversation_history (addMessages db s items) s items.length).map
        (fun m => (m.role, m.content)) = items) ∧
    ((get_conversation_history (addMessages db s items) s items.length).map
        (fun m => m.timestamp)).Pairwise (fun a b => a ≤ b) := by
  obtain ⟨rows, hfil, hmap, hpw, _, _, _⟩ := addMessages_rows s items db
  have hlen : rows.length = items.length := by
    rw [← hmap, List.length_map]
  have hhist : get_conversation_history (addMessages db s items) s
      items.length = rows.map msgOfRow := by
    unfold get_conversation_history
    dsimp only
    rw [hfil, List.reverse_append,
      List.take_left' (by rw [List.length_reverse]; exact hlen),
      List.map_reverse, List.reverse_reverse]
  constructor
  · rw [hhist, List.map_map]
    have : ((fun m : Message => (m.role, m.content)) ∘ msgOfRow) =
        (fun r : MessageRow => (r.role, r.content)) := by
      funext r
      rfl
    rw [this, hmap]
  · rw [hhist, List.map_map]
    have : ((fun m : Message => m.timestamp) ∘ msgOfRow) =
        (fun r : MessageRow => r.timestamp) := by
      funext r
      rfl
    rw [this]
    rw [List.pairwise_map]
    exact hpw.imp Nat.le_of_lt

/-! ## Claim C10: malformed message metadata falls back to an empty map -/

/-- Claim C10: a stored message whose metadata blob is NULL or fails to
parse as JSON is still returned by `get_conversation_history` (no
exception path), with metadata equal to the empty map — the malformed blob
is silently replaced by `\x7b\x7d` rather than surfaced as the raw string or an
error. -/
theorem history_metadata_fallback (db : DB) (s : String) (limit : Nat)
    (r : MessageRow)
    (hr : r ∈ ((db.messages.filter
        (fun x => x.session_id == s)).reverse).take limit)
    (hm : r.metadata = none ∨
      ∀ ms, r.metadata = some ms → json_loads ms = none) :
    ((msgOfRow r).metadata = JsonVal.jobj []) ∧
    msgOfRow r ∈ get_conversation_history db s limit := by
  constructor
  · unfold msgOfRow
    cases hmd : r.metadata with
    | none => rfl
    | some ms =>
      rcases hm with h | h
      · rw [hmd] at h
        exact absurd h (by simp)
      · have hl : json_loads ms = none := h ms hmd
        cases he : (ms == "") with
        | true => simp [he]
        | false => simp [he, hl]
  · unfold get_conversation_history
    dsimp only
    rw [List.mem_reverse]
    exact List.mem_map_of_mem msgOfRow hr

/-- The database used to witness claim C10: one session with one message
whose metadata blob is not valid JSON. -/
def dbC10 : DB :=
  ⟨[⟨"s1", 0, 0, "\x7b\x7d"⟩],
   [⟨1, "s1", "user", "hi", some "\x7bnot valid", 1⟩],
   [], 2, 1, 2⟩

theorem history_metadata_fallback_witness :
    ((msgOfRow ⟨1, "s1", "user", "hi", some "\x7bnot valid", 1⟩).metadata =
      JsonVal.jobj []) ∧
    msgOfRow ⟨1, "s1", "user", "hi", some "\x7bnot valid", 1⟩ ∈
      get_conversation_history dbC10 "s1" 10 :=
  history_metadata_fallback dbC10 "s1" 10
    ⟨1, "s1", "user", "hi", some "\x7bnot valid", 1⟩
    (by decide)
    (Or.inr (fun ms hms => by
      injection hms with hms
      rw [← hms]
      rfl))
